import Mathlib

/-!
Verification development for the RunPod serverless handler in `handler.py`
(Wan 2.2 image-to-video adapter).

The handler is shallowly embedded: HTTP interactions are modelled by an
explicit `Backend` environment (one oracle per REST call), wall-clock time by
natural-number seconds, and the retry loops by fuel-bounded recursion whose
fuel is proved sufficient.  Every backend interaction and every `time.sleep`
is recorded in an event trace so that "no backend call" / "never sleeps"
properties are directly observable.
-/

set_option autoImplicit false

deriving instance DecidableEq for Except

namespace Wan22

/-! ## JSON-ish values and workflow graphs -/

/-- A value stored in a node's `inputs` dict.  Only the distinctions the
handler observes are modelled: `isinstance(v, str)`, `isinstance(v, int)`,
anything else. -/
inductive JVal where
  | str (s : String)
  | int (n : Int)
  | other
deriving DecidableEq, Repr

/-- A workflow node: `class_type` tag (`node.get("class_type")`) and the
`inputs` dict (`node.get("inputs", {})`; a missing `inputs` key behaves like
an empty dict). -/
structure Node where
  class_type : Option String
  inputs : List (String × JVal)
deriving DecidableEq, Repr

/-- A ComfyUI API-format workflow: node id -> node, in dict insertion order. -/
abbrev Workflow := List (String × Node)

/-- First binding for a key in an association list (Python dict lookup). -/
def lookupKey {α : Type} (l : List (String × α)) (k : String) : Option α :=
  match l with
  | [] => none
  | (k', v) :: rest => if k' = k then some v else lookupKey rest k

/-- Python dict assignment `d[k] = v`: replace the value at an existing key
in place, else append the new binding. -/
def setKey {α : Type} (l : List (String × α)) (k : String) (v : α) :
    List (String × α) :=
  match l with
  | [] => [(k, v)]
  | (k', v') :: rest => if k' = k then (k, v) :: rest else (k', v') :: setKey rest k v

/-! ## Path helpers (`pathlib.Path` fragments used by the handler) -/

/-- Split a character list on `'/'`. -/
def splitSlash : List Char → List Char → List String
  | [], acc => [String.mk acc.reverse]
  | c :: rest, acc =>
    if c = '/' then String.mk acc.reverse :: splitSlash rest []
    else splitSlash rest (c :: acc)

/-- Non-trivial components of a path string: `pathlib` drops empty and `"."`
segments. -/
def pathComponents (p : String) : List String :=
  (splitSlash p.toList []).filter (fun c => c ≠ "" && c ≠ ".")

/-- `Path(p).name`: the final path component, `""` if there is none. -/
def pathNameOf (p : String) : String :=
  (pathComponents p).getLastD ""

/-- Index of the last `'.'` in a list of characters. -/
def lastDotIdx : List Char → Option Nat
  | [] => none
  | c :: rest =>
    match lastDotIdx rest with
    | some i => some (i + 1)
    | none => if c = '.' then some 0 else none

/-- `Path(filename).suffix`: `name.rfind('.')` must land strictly inside the
final component (`0 < i < len(name) - 1`), else the suffix is empty. -/
def pathSuffix (filename : String) : String :=
  let name := pathNameOf filename
  match lastDotIdx name.toList with
  | some i => if 0 < i ∧ i < name.length - 1 then String.mk (name.toList.drop i) else ""
  | none => ""

/-- ASCII `str.lower()` on one character. -/
def charLower (c : Char) : Char :=
  if 'A' ≤ c ∧ c ≤ 'Z' then Char.ofNat (c.toNat + 32) else c

/-- `str.lower()` (the handler only meets ASCII extensions). -/
def strLower (s : String) : String :=
  String.mk (s.toList.map charLower)

/-! ## Config constants (lines 52-58 of `handler.py`) -/

def COMFY_OUTPUT_DIR : String := "/comfyui/output"

def COMFY_INPUT_DIR : String := "/comfyui/input"

/-- `POLL_INTERVAL = 1.0` seconds, modelled as one integer second. -/
def POLL_INTERVAL : Nat := 1

def POLL_TIMEOUT : Nat := 600

def STARTUP_WAIT : Nat := 90

/-! ## Output descriptors -/

/-- One ComfyUI output descriptor: `item.get("filename", "")` and
`item.get("subfolder", "")` (missing keys behave like `""`). -/
structure OutputItem where
  filename : String
  subfolder : String
deriving DecidableEq, Repr

/-- One node's output record: the `gifs` / `videos` / `images` arrays
(`node_output.get(key, [])`; a missing key behaves like an empty list). -/
structure NodeOutput where
  gifs : List OutputItem
  videos : List OutputItem
  images : List OutputItem
deriving DecidableEq, Repr

/-- The `outputs` dict of a history entry: node id -> node output record. -/
abbrev Outputs := List (String × NodeOutput)

def VIDEO_EXTS : List String := [".mp4", ".webp", ".webm", ".gif"]

/-- `Path(item["filename"]).suffix.lower()`. -/
def itemExt (item : OutputItem) : String :=
  strLower (pathSuffix item.filename)

/-- Is this descriptor's extension a recognized media extension? -/
def isMediaItem (item : OutputItem) : Bool :=
  VIDEO_EXTS.contains (itemExt item)

/-- `COMFY_OUTPUT_DIR / subfolder / filename`, as path components. -/
def joinedPath (item : OutputItem) : List String :=
  pathComponents COMFY_OUTPUT_DIR ++ pathComponents item.subfolder ++
    pathComponents item.filename

/-- Scan one category list in order for the first recognized media file. -/
def findInCat (items : List OutputItem) : Option OutputItem :=
  items.find? isMediaItem

/-- Scan one node's categories in the fixed order `gifs`, `videos`, `images`. -/
def findInNode (no : NodeOutput) : Option OutputItem :=
  match findInCat no.gifs with
  | some item => some item
  | none =>
    match findInCat no.videos with
    | some item => some item
    | none => findInCat no.images

/-- `find_output_file` (lines 173-191): walk the nodes of the outputs dict in
order; within each node scan `gifs`, `videos`, `images`; return the full path
of the first recognized media descriptor, `none` when the code raises
`FileNotFoundError`. -/
def find_output_file (outputs : Outputs) : Option (List String) :=
  match outputs with
  | [] => none
  | (_, no) :: rest =>
    match findInNode no with
    | some item => some (joinedPath item)
    | none => find_output_file rest

/-! ## Backend environment -/

/-- Result of one `requests.get(f"{COMFY_HOST}/system_stats", timeout=5)`. -/
inductive ProbeResult where
  | ok (code : Nat)
  | connError
  | otherError (msg : String)
deriving DecidableEq, Repr

/-- One history entry for the polled prompt id: `status.get("status_str")`,
`status.get("messages", [])` (payload kept opaque as strings), and
`entry.get("outputs", {})`.  A missing `status` dict flattens to
`statusStr = none`, `messages = []`. -/
structure HistEntry where
  statusStr : Option String
  messages : List String
  outputs : Outputs
deriving DecidableEq, Repr

/-- Result of one `requests.get(f"{COMFY_HOST}/history/{prompt_id}")`:
either a raised `requests.exceptions.RequestException`, or a response with a
status code and (for 200) the decoded history dict. -/
inductive PollResp where
  | transportErr
  | http (code : Nat) (history : List (String × HistEntry))
deriving DecidableEq, Repr

/-- Result of the upload sequence in `upload_image_to_comfy`: `err msg` for a
failed base64 decode, disk write, or non-2xx / raised HTTP call (with
`str(exc) = msg`); `ok name` for a 2xx response whose JSON `name` field is
`name` (absent field modelled by `none`). -/
inductive UploadResult where
  | err (msg : String)
  | ok (name : Option String)
deriving DecidableEq, Repr

/-- JSON body of a 2xx `/prompt` response, as far as the code reads it:
presence of an `"error"` field (its rendering), an optional `node_errors`
field (its rendering), and the `prompt_id` field. -/
structure QueueBody where
  error : Option String
  node_errors : Option String
  prompt_id : Option String
deriving DecidableEq, Repr

/-- Result of `requests.post(f"{COMFY_HOST}/prompt", ...)` followed by
`raise_for_status()`: `err msg` for a raised exception (with
`str(exc) = msg`), `ok body` for a 2xx JSON body. -/
inductive QueueResult where
  | err (msg : String)
  | ok (body : QueueBody)
deriving DecidableEq, Repr

/-- The mocked ComfyUI backend: response oracles for each REST call, plus the
wall-clock duration (whole seconds) each probe/poll request takes. -/
structure Backend where
  probes : Nat → ProbeResult
  probeDur : Nat → Nat
  upload : String → String → UploadResult
  queue : Workflow → String → QueueResult
  polls : Nat → PollResp
  pollDur : Nat → Nat

/-- Observable events of one handler invocation. -/
inductive Ev where
  | probe
  | sleep
  | uploadCall (filename : String)
  | submitCall
  | pollReq
deriving DecidableEq, Repr

/-! ## Exceptions -/

/-- The exceptions that can escape the steps of the lifecycle and reach the
top-level `except Exception` in `handler`. -/
inductive Exc where
  | notReady (timeout : Nat)
  | transport (msg : String)
  | rejected (details : String)
  | keyError (key : String)
  | execError (msgs : List String)
  | pollTimeout (timeout : Nat) (prompt_id : String)
  | noOutput
deriving DecidableEq, Repr

/-- Python `repr` of a list of strings, used by the f-string rendering of the
execution-error message. -/
def pyStrListRepr (msgs : List String) : String :=
  "[" ++ String.intercalate ", " (msgs.map (fun m => "'" ++ m ++ "'")) ++ "]"

/-- `str(exc)` for each exception, matching the f-strings in `handler.py`.
(The `FileNotFoundError` message also interpolates the Python repr of the
outputs dict, which is not modelled.) -/
def excMsg : Exc → String
  | .notReady t => s!"ComfyUI did not become ready within {t}s"
  | .transport m => m
  | .rejected d => s!"ComfyUI rejected workflow: {d}"
  | .keyError k => s!"'{k}'"
  | .execError msgs => "ComfyUI execution error: " ++ pyStrListRepr msgs
  | .pollTimeout t pid => s!"Timed out after {t}s waiting for prompt {pid}"
  | .noOutput => "No video/animated file found in ComfyUI outputs"

/-! ## Readiness prober (`wait_for_comfy`, lines 63-75) -/

inductive WaitOutcome where
  | ready
  | unavailable
  | raisedOther (msg : String)
  | fuelOut
deriving DecidableEq, Repr

/-- The body of the `while time.time() < deadline` loop of `wait_for_comfy`,
with explicit fuel.  A 200 response returns; a `ConnectionError` is passed
over; any other exception propagates; otherwise `time.sleep(1)` and retry.
`fuelOut` is unreachable for the fuel used by `wait_for_comfy`
(`waitAux_no_fuelOut`), because each iteration advances time by at least one
second. -/
def waitAux (env : Backend) (deadline : Nat) : Nat → Nat → Nat → WaitOutcome × List Ev
  | 0, _, t => if t < deadline then (.fuelOut, []) else (.unavailable, [])
  | fuel + 1, n, t =>
    if t < deadline then
      match env.probes n with
      | .ok code =>
        if code = 200 then (.ready, [.probe])
        else
          let r := waitAux env deadline fuel (n + 1) (t + env.probeDur n + 1)
          (r.1, .probe :: .sleep :: r.2)
      | .connError =>
        let r := waitAux env deadline fuel (n + 1) (t + env.probeDur n + 1)
        (r.1, .probe :: .sleep :: r.2)
      | .otherError m => (.raisedOther m, [.probe])
    else (.unavailable, [])

/-- `wait_for_comfy(timeout=STARTUP_WAIT)`, as an `Except`: timeout expiry
raises `RuntimeError(f"ComfyUI did not become ready within {timeout}s")`. -/
def wait_for_comfy (env : Backend) : Except Exc Unit × List Ev :=
  match waitAux env STARTUP_WAIT STARTUP_WAIT 0 0 with
  | (.ready, evs) => (.ok (), evs)
  | (.unavailable, evs) => (.error (.notReady STARTUP_WAIT), evs)
  | (.raisedOther m, evs) => (.error (.transport m), evs)
  | (.fuelOut, evs) => (.error (.notReady STARTUP_WAIT), evs)

/-! ## Payload normalizer (lines 78-125) -/

/-- `upload_image_to_comfy` (lines 78-98): decode, write to the input dir,
POST `/upload/image`, `raise_for_status()`, then
`resp.json().get("name", filename)`. -/
def upload_image_to_comfy (env : Backend) (image_b64 filename : String) :
    Except Exc String × List Ev :=
  match env.upload image_b64 filename with
  | .err msg => (.error (.transport msg), [.uploadCall filename])
  | .ok name => (.ok (name.getD filename), [.uploadCall filename])

/-- Line 119's base64 heuristic on an already-known string:
`len(image_val) > 256 and "." not in image_val[:50]`. -/
def isBase64Str (s : String) : Bool :=
  decide (s.length > 256) && !((s.toList.take 50).contains '.')

/-- The full detection condition of line 119 on an arbitrary value,
including `isinstance(image_val, str)`. -/
def isBase64Image : JVal → Bool
  | .str s => isBase64Str s
  | _ => false

/-- Does `replace_base64_images_in_workflow` rewrite this node?  True iff the
`class_type` is `"LoadImage"` and the `image` input satisfies the base64
heuristic. -/
def nodeTouched (node : Node) : Bool :=
  decide (node.class_type = some "LoadImage") &&
    isBase64Image ((lookupKey node.inputs "image").getD (.str ""))

/-- `replace_base64_images_in_workflow` (lines 101-125): walk the nodes; for
every `LoadImage` node whose `image` input looks like raw base64, upload it
and replace the value with the registered name.  An upload failure aborts the
walk (the exception propagates). -/
def replace_base64_images_in_workflow (env : Backend) (client_id : String) :
    Workflow → Except Exc Workflow × List Ev
  | [] => (.ok [], [])
  | (node_id, node) :: rest =>
    if node.class_type ≠ some "LoadImage" then
      let r := replace_base64_images_in_workflow env client_id rest
      (r.1.map (fun ws => (node_id, node) :: ws), r.2)
    else
      match (lookupKey node.inputs "image").getD (.str "") with
      | .str s =>
        if isBase64Str s then
          let filename := "i2v_input_" ++ client_id ++ ".png"
          match upload_image_to_comfy env s filename with
          | (.error e, evs) => (.error e, evs)
          | (.ok registered, evs) =>
            let node' : Node :=
              { node with inputs := setKey node.inputs "image" (.str registered) }
            let r := replace_base64_images_in_workflow env client_id rest
            (r.1.map (fun ws => (node_id, node') :: ws), evs ++ r.2)
        else
          let r := replace_base64_images_in_workflow env client_id rest
          (r.1.map (fun ws => (node_id, node) :: ws), r.2)
      | _ =>
        let r := replace_base64_images_in_workflow env client_id rest
        (r.1.map (fun ws => (node_id, node) :: ws), r.2)

/-! ## Submitter (`queue_prompt`, lines 128-139) -/

/-- `queue_prompt`: POST the payload; `raise_for_status()`; a body with an
`"error"` field raises `RuntimeError(f"ComfyUI rejected workflow: {details}")`
where `details = data.get("node_errors", data["error"])`; otherwise
`data["prompt_id"]` (a missing key raises `KeyError`). -/
def queue_prompt (env : Backend) (workflow : Workflow) (client_id : String) :
    Except Exc String × List Ev :=
  match env.queue workflow client_id with
  | .err msg => (.error (.transport msg), [.submitCall])
  | .ok data =>
    match data.error with
    | some e => (.error (.rejected (data.node_errors.getD e)), [.submitCall])
    | none =>
      match data.prompt_id with
      | some pid => (.ok pid, [.submitCall])
      | none => (.error (.keyError "prompt_id"), [.submitCall])

/-! ## Poller (`poll_until_done`, lines 142-170) -/

inductive PollOutcome where
  | done (outputs : Outputs)
  | execError (msgs : List String)
  | timedOut
  | fuelOut
deriving DecidableEq, Repr

/-- Is this poll response one the loop swallows and retries?  True for a
raised transport error, a non-200 status, a history not containing the
prompt id, and an entry with neither an `"error"` status nor a non-empty
outputs dict. -/
def respNonTerminal (prompt_id : String) : PollResp → Bool
  | .transportErr => true
  | .http code history =>
    if code = 200 then
      match lookupKey history prompt_id with
      | some entry =>
        !(decide (entry.statusStr = some "error")) && entry.outputs.isEmpty
      | none => true
    else true

/-- The body of the `while time.time() < deadline` loop of `poll_until_done`,
with explicit fuel.  An `"error"` status raises `RuntimeError` (not caught by
`except RequestException`, so no sleep happens); a non-empty outputs dict
returns; everything else falls through to `time.sleep(POLL_INTERVAL)` and
retries.  `fuelOut` is unreachable for the fuel used by `poll_until_done`
(`pollAux_no_fuelOut`). -/
def pollAux (env : Backend) (prompt_id : String) (deadline : Nat) :
    Nat → Nat → Nat → PollOutcome × List Ev
  | 0, _, t => if t < deadline then (.fuelOut, []) else (.timedOut, [])
  | fuel + 1, n, t =>
    if t < deadline then
      match env.polls n with
      | .transportErr =>
        let r := pollAux env prompt_id deadline fuel (n + 1) (t + env.pollDur n + POLL_INTERVAL)
        (r.1, .pollReq :: .sleep :: r.2)
      | .http code history =>
        if code = 200 then
          match lookupKey history prompt_id with
          | some entry =>
            if entry.statusStr = some "error" then (.execError entry.messages, [.pollReq])
            else if !entry.outputs.isEmpty then (.done entry.outputs, [.pollReq])
            else
              let r := pollAux env prompt_id deadline fuel (n + 1) (t + env.pollDur n + POLL_INTERVAL)
              (r.1, .pollReq :: .sleep :: r.2)
          | none =>
            let r := pollAux env prompt_id deadline fuel (n + 1) (t + env.pollDur n + POLL_INTERVAL)
            (r.1, .pollReq :: .sleep :: r.2)
        else
          let r := pollAux env prompt_id deadline fuel (n + 1) (t + env.pollDur n + POLL_INTERVAL)
          (r.1, .pollReq :: .sleep :: r.2)
    else (.timedOut, [])

/-- `poll_until_done(prompt_id)`, as an `Except`: loop exit raises
`TimeoutError(f"Timed out after {POLL_TIMEOUT}s ...")`, an `"error"` status
raises `RuntimeError(f"ComfyUI execution error: {msgs}")`. -/
def poll_until_done (env : Backend) (prompt_id : String) :
    Except Exc Outputs × List Ev :=
  match pollAux env prompt_id POLL_TIMEOUT POLL_TIMEOUT 0 0 with
  | (.done outputs, evs) => (.ok outputs, evs)
  | (.execError msgs, evs) => (.error (.execError msgs), evs)
  | (.timedOut, evs) => (.error (.pollTimeout POLL_TIMEOUT prompt_id), evs)
  | (.fuelOut, evs) => (.error (.pollTimeout POLL_TIMEOUT prompt_id), evs)

/-! ## Seed extractor (`extract_seed_from_workflow`, lines 194-201) -/

/-- Per-node seed lookup: key `"seed"` then `"noise_seed"`, accepted only when
the value is an `int`. -/
def nodeSeed (node : Node) : Option Int :=
  match lookupKey node.inputs "seed" with
  | some (.int n) => some n
  | _ =>
    match lookupKey node.inputs "noise_seed" with
    | some (.int n) => some n
    | _ => none

/-- `extract_seed_from_workflow`: first integer seed in node iteration order,
else the sentinel `-1`. -/
def extract_seed_from_workflow : Workflow → Int
  | [] => -1
  | (_, node) :: rest =>
    match nodeSeed node with
    | some n => n
    | none => extract_seed_from_workflow rest

/-! ## Top-level handler (lines 206-264) -/

/-- The `workflow` value found in the input dict: Python `None` (missing
key), a non-dict value (with its truthiness), or a dict. -/
inductive WorkflowField where
  | absent
  | notDict (truthy : Bool)
  | dict (wf : Workflow)
deriving DecidableEq, Repr

/-- `job.get("input", {})`, as far as the handler reads it. -/
structure JobInput where
  workflow : WorkflowField
deriving DecidableEq, Repr

/-- The job dict handed to `handler` by the RunPod queue. -/
structure JobDict where
  input : Option JobInput
deriving DecidableEq, Repr

/-- The handler's external result: the success dict (whose `status` field is
always `"completed"`) or the failure dict `{"error": msg}`. -/
inductive HandlerResult where
  | completed (video_url task_id : String) (seed_used : Int)
  | error (msg : String)
deriving DecidableEq, Repr

def invalidWorkflowMsg : String :=
  "Missing or invalid 'workflow' in input. Expected a ComfyUI API-format workflow dict."

/-- The `try` block of `handler` (lines 234-264): ready-wait, normalize, seed
extraction, submit, poll, locate; every exception is converted to
`{"error": str(exc)}`. -/
def handlerBody (env : Backend) (client_id : String) (workflow : Workflow) :
    HandlerResult × List Ev :=
  match wait_for_comfy env with
  | (.error e, ev1) => (.error (excMsg e), ev1)
  | (.ok _, ev1) =>
    match replace_base64_images_in_workflow env client_id workflow with
    | (.error e, ev2) => (.error (excMsg e), ev1 ++ ev2)
    | (.ok workflow2, ev2) =>
      let seed_used := extract_seed_from_workflow workflow2
      match queue_prompt env workflow2 client_id with
      | (.error e, ev3) => (.error (excMsg e), ev1 ++ ev2 ++ ev3)
      | (.ok prompt_id, ev3) =>
        match poll_until_done env prompt_id with
        | (.error e, ev4) => (.error (excMsg e), ev1 ++ ev2 ++ ev3 ++ ev4)
        | (.ok outputs, ev4) =>
          match find_output_file outputs with
          | none => (.error (excMsg .noOutput), ev1 ++ ev2 ++ ev3 ++ ev4)
          | some output_path =>
            (.completed ("/outputs/" ++ output_path.getLastD "")
              ("job_" ++ prompt_id) seed_used, ev1 ++ ev2 ++ ev3 ++ ev4)

/-- `handler(job)` (lines 206-264).  The validation at lines 228-230
(`if not workflow or not isinstance(workflow, dict)`) rejects a missing
`workflow`, a non-dict value, and an empty dict, in all cases before any
backend interaction.  `client_id` models the fresh `str(uuid.uuid4())`. -/
def handler (env : Backend) (client_id : String) (job : JobDict) :
    HandlerResult × List Ev :=
  let job_input := job.input.getD { workflow := .absent }
  match job_input.workflow with
  | .dict workflow =>
    if workflow.isEmpty then (.error invalidWorkflowMsg, [])
    else handlerBody env client_id workflow
  | _ => (.error invalidWorkflowMsg, [])

/-! ## Timing of the retry loops -/

/-- Start time of the `k`-th iteration of a retry loop whose `n`-th iteration
takes `dur n` seconds of request time plus `step` seconds of sleep, counting
from iteration `n` at time `t`. -/
def timeFrom (dur : Nat → Nat) (step : Nat) : Nat → Nat → Nat → Nat
  | _, t, 0 => t
  | n, t, k + 1 => timeFrom dur step (n + 1) (t + dur n + step) k

/-- Start time of the `k`-th poll attempt. -/
def pollTimeAt (env : Backend) (k : Nat) : Nat :=
  timeFrom env.pollDur POLL_INTERVAL 0 0 k

/-- Start time of the `k`-th readiness probe. -/
def probeTimeAt (env : Backend) (k : Nat) : Nat :=
  timeFrom env.probeDur 1 0 0 k

/-- Is this probe response one the readiness loop sleeps on and retries?
True for `ConnectionError` and for any non-200 status code. -/
def probeNotReady : ProbeResult → Bool
  | .ok code => !(decide (code = 200))
  | .connError => true
  | .otherError _ => false

/-- Classification of one iteration of the readiness loop: `some r` when the
iteration ends the loop with result and events `r`, `none` when it falls
through to `time.sleep(1)` and retries. -/
def probeStep : ProbeResult → Option (WaitOutcome × List Ev)
  | .ok code => if code = 200 then some (.ready, [.probe]) else none
  | .connError => none
  | .otherError m => some (.raisedOther m, [.probe])

/-- Classification of one iteration of the poll loop: `some r` when the
iteration ends the loop with result and events `r`, `none` when it falls
through to `time.sleep(POLL_INTERVAL)` and retries. -/
def pollStep (prompt_id : String) : PollResp → Option (PollOutcome × List Ev)
  | .transportErr => none
  | .http code history =>
    if code = 200 then
      match lookupKey history prompt_id with
      | some entry =>
        if entry.statusStr = some "error" then some (.execError entry.messages, [.pollReq])
        else if !entry.outputs.isEmpty then some (.done entry.outputs, [.pollReq])
        else none
      | none => none
    else none

/-! ## Spec-side definitions for the Result Locator claim -/

/-- Concatenation of one category across all nodes, in node order. -/
def catOf (sel : NodeOutput → List OutputItem) : Outputs → List OutputItem
  | [] => []
  | (_, no) :: rest => sel no ++ catOf sel rest

/-- Category-major locator following the claim's words: scan the category
`gifs` across every node, then `videos` across every node, then `images`
across every node, returning the first recognized media descriptor — so that
the gifs/videos/images priority is independent of the ordering of the nodes
in the outputs dictionary. -/
def locateCategoryMajor (outputs : Outputs) : Option (List String) :=
  ((catOf (fun no => no.gifs) outputs ++ catOf (fun no => no.videos) outputs ++
      catOf (fun no => no.images) outputs).find? isMediaItem).map joinedPath

/-- All descriptors in the order `find_output_file` actually visits them:
node-major, and inside each node `gifs`, `videos`, `images`. -/
def allItemsNodeMajor : Outputs → List OutputItem
  | [] => []
  | (_, no) :: rest => (no.gifs ++ no.videos ++ no.images) ++ allItemsNodeMajor rest

/-! ## Concrete scenarios used by the claim theorems -/

/-- A 2000-character base64-looking payload (no `.` anywhere). -/
def bigB64 : String := String.mk (List.replicate 2000 'a')

/-- A 262-character string whose second character is a `.`: longer than 256
but classified as a filename by the early-dot test. -/
def longDotted : String := String.mk ('a' :: '.' :: List.replicate 260 'b')

/-- A 260-character dot-free string: classified as base64. -/
def shortB64 : String := String.mk (List.replicate 260 'a')

def outs1 : Outputs :=
  [("9", { gifs := [], videos := [{ filename := "result.mp4", subfolder := "" }], images := [] })]

def entry1 : HistEntry := { statusStr := none, messages := [], outputs := outs1 }

def hist1 : List (String × HistEntry) := [("abc123", entry1)]

/-- The mocked backend of the end-to-end scenario: immediately ready, accepts
the upload, accepts submission with handle `"abc123"`, first poll reports the
`result.mp4` outputs. -/
def env1 : Backend :=
  { probes := fun _ => .ok 200
    probeDur := fun _ => 0
    upload := fun _ _ => .ok none
    queue := fun _ _ => .ok { error := none, node_errors := none, prompt_id := some "abc123" }
    polls := fun _ => .http 200 hist1
    pollDur := fun _ => 0 }

/-- The end-to-end scenario's workflow: one `LoadImage` node carrying the
2000-character base64 string. -/
def wf1 : Workflow :=
  [("3", { class_type := some "LoadImage", inputs := [("image", .str bigB64)] })]

/-- `wf1` after normalization under `env1` with client id `"cid1"`. -/
def wf1r : Workflow :=
  [("3", { class_type := some "LoadImage", inputs := [("image", .str "i2v_input_cid1.png")] })]

def job1 : JobDict := { input := some { workflow := .dict wf1 } }

/-- Outputs with a `.mp4` video in the first node and a `.gif` gif in the
second node: node-major and category-major scans disagree here. -/
def exC3 : Outputs :=
  [("1", { gifs := [], videos := [{ filename := "v.mp4", subfolder := "" }], images := [] }),
   ("2", { gifs := [{ filename := "g.gif", subfolder := "" }], videos := [], images := [] })]

/-- Outputs containing only a `.png` image descriptor and a `.mp4` video
descriptor, in that order. -/
def exPngMp4 : Outputs :=
  [("8", { gifs := [], videos := [], images := [{ filename := "image.png", subfolder := "" }] }),
   ("9", { gifs := [], videos := [{ filename := "result.mp4", subfolder := "" }], images := [] })]

/-- A backend whose first health probe raises a non-`ConnectionError`
transport error (e.g. a read timeout). -/
def envReadTimeout : Backend :=
  { probes := fun _ => .otherError "read timed out"
    probeDur := fun _ => 0
    upload := fun _ _ => .ok none
    queue := fun _ _ => .err "unused"
    polls := fun _ => .transportErr
    pollDur := fun _ => 0 }

/-- A backend whose health endpoint refuses connections forever. -/
def envAllConnRefused : Backend :=
  { probes := fun _ => .connError
    probeDur := fun _ => 0
    upload := fun _ _ => .ok none
    queue := fun _ _ => .err "unused"
    polls := fun _ => .transportErr
    pollDur := fun _ => 0 }

def entryErr : HistEntry :=
  { statusStr := some "error", messages := ["boom"], outputs := [] }

/-- A backend whose history endpoint immediately reports status "error". -/
def envErrFirst : Backend :=
  { probes := fun _ => .ok 200
    probeDur := fun _ => 0
    upload := fun _ _ => .ok none
    queue := fun _ _ => .err "unused"
    polls := fun _ => .http 200 [("p", entryErr)]
    pollDur := fun _ => 0 }

def entryErrWithOutputs : HistEntry :=
  { statusStr := some "error", messages := ["boom"], outputs := outs1 }

/-- A backend whose history endpoint reports status "error" together with a
non-empty outputs payload. -/
def envErrOut : Backend :=
  { probes := fun _ => .ok 200
    probeDur := fun _ => 0
    upload := fun _ _ => .ok none
    queue := fun _ _ => .err "unused"
    polls := fun _ => .http 200 [("p", entryErrWithOutputs)]
    pollDur := fun _ => 0 }

def entryPending : HistEntry := { statusStr := none, messages := [], outputs := [] }

/-- Poll responses exercising every swallowed shape: a transport error, a
404, a 200 without the handle, a 200 whose entry lacks outputs, then
success. -/
def pollsC6 : Nat → PollResp
  | 0 => .transportErr
  | 1 => .http 404 []
  | 2 => .http 200 []
  | 3 => .http 200 [("p", entryPending)]
  | _ => .http 200 [("p", entry1)]

def envC6 : Backend :=
  { probes := fun _ => .ok 200
    probeDur := fun _ => 0
    upload := fun _ _ => .ok none
    queue := fun _ _ => .err "unused"
    polls := pollsC6
    pollDur := fun _ => 0 }

/-- A workflow exercising the three untouched shapes: a non-image-loading
node, a short image string, and a long image string with an early dot. -/
def wfUntouched : Workflow :=
  [("1", { class_type := some "KSampler", inputs := [("seed", .int 42)] }),
   ("2", { class_type := some "LoadImage", inputs := [("image", .str "photo.png")] }),
   ("3", { class_type := some "LoadImage", inputs := [("image", .str longDotted)] })]

/-- A backend that registers every upload under the short name `"reg.png"`. -/
def envReg : Backend :=
  { probes := fun _ => .ok 200
    probeDur := fun _ => 0
    upload := fun _ _ => .ok (some "reg.png")
    queue := fun _ _ => .err "unused"
    polls := fun _ => .transportErr
    pollDur := fun _ => 0 }

/-- A one-node workflow whose image value is a 260-character base64-like
string. -/
def wfC8 : Workflow :=
  [("7", { class_type := some "LoadImage", inputs := [("image", .str shortB64)] })]

/-- `wfC8` after normalization under `envReg`. -/
def wfC8r : Workflow :=
  [("7", { class_type := some "LoadImage", inputs := [("image", .str "reg.png")] })]

def jobNoWorkflow : JobDict := { input := some { workflow := .absent } }

def jobEmptyWorkflow : JobDict := { input := some { workflow := .dict [] } }

/-! ## Basic lemmas about the loop timing -/

theorem POLL_INTERVAL_eq : POLL_INTERVAL = 1 := rfl

theorem timeFrom_zero (dur : Nat → Nat) (step n t : Nat) :
    timeFrom dur step n t 0 = t := rfl

theorem timeFrom_succ (dur : Nat → Nat) (step n t k : Nat) :
    timeFrom dur step n t (k + 1) = timeFrom dur step (n + 1) (t + dur n + step) k := rfl

theorem le_timeFrom (dur : Nat → Nat) (step : Nat) :
    ∀ (k n t : Nat), t ≤ timeFrom dur step n t k := by
  intro k
  induction k with
  | zero => intro n t; exact Nat.le_refl t
  | succ k ih =>
    intro n t
    calc t ≤ t + dur n + step := by omega
    _ ≤ timeFrom dur step (n + 1) (t + dur n + step) k := ih (n + 1) _

/-! ## Step classification lemmas -/

theorem pollStep_none_iff (pid : String) (r : PollResp) :
    pollStep pid r = none ↔ respNonTerminal pid r = true := by
  cases r with
  | transportErr => simp [pollStep, respNonTerminal]
  | http code hist =>
    by_cases hc : code = 200
    · subst hc
      cases hl : lookupKey hist pid with
      | none => simp [pollStep, respNonTerminal, hl]
      | some e =>
        by_cases hs : e.statusStr = some "error"
        · simp [pollStep, respNonTerminal, hl, hs]
        · by_cases ho : e.outputs.isEmpty <;> simp [pollStep, respNonTerminal, hl, hs, ho]
    · simp [pollStep, respNonTerminal, hc]

theorem pollStep_some (pid : String) (resp : PollResp) (r : PollOutcome × List Ev)
    (h : pollStep pid resp = some r) :
    (∃ msgs, r = (.execError msgs, [.pollReq])) ∨ ∃ outs, r = (.done outs, [.pollReq]) := by
  cases resp with
  | transportErr => simp [pollStep] at h
  | http code hist =>
    by_cases hc : code = 200
    · subst hc
      cases hl : lookupKey hist pid with
      | none => simp [pollStep, hl] at h
      | some e =>
        by_cases hs : e.statusStr = some "error"
        · exact Or.inl ⟨e.messages, by simpa [pollStep, hl, hs] using h.symm⟩
        · by_cases ho : e.outputs.isEmpty
          · simp [pollStep, hl, hs, ho] at h
          · exact Or.inr ⟨e.outputs, by simpa [pollStep, hl, hs, ho] using h.symm⟩
    · simp [pollStep, hc] at h

theorem probeStep_none_iff (r : ProbeResult) :
    probeStep r = none ↔ probeNotReady r = true := by
  cases r with
  | ok code => by_cases hc : code = 200 <;> simp [probeStep, probeNotReady, hc]
  | connError => simp [probeStep, probeNotReady]
  | otherError m => simp [probeStep, probeNotReady]

theorem probeStep_some (resp : ProbeResult) (r : WaitOutcome × List Ev)
    (h : probeStep resp = some r) :
    r = (.ready, [.probe]) ∨ ∃ m, r = (.raisedOther m, [.probe]) := by
  cases resp with
  | ok code =>
    by_cases hc : code = 200
    · exact Or.inl (by simpa [probeStep, hc] using h.symm)
    · simp [probeStep, hc] at h
  | connError => simp [probeStep] at h
  | otherError m => exact Or.inr ⟨m, by simpa [probeStep] using h.symm⟩

/-! ## Unfolding equations for the fuel-bounded loops -/

theorem pollAux_zero (env : Backend) (pid : String) (deadline n t : Nat) :
    pollAux env pid deadline 0 n t =
      if t < deadline then (.fuelOut, []) else (.timedOut, []) := rfl

theorem pollAux_succ (env : Backend) (pid : String) (deadline fuel n t : Nat) :
    pollAux env pid deadline (fuel + 1) n t =
      if t < deadline then
        match pollStep pid (env.polls n) with
        | some r => r
        | none =>
          ((pollAux env pid deadline fuel (n + 1) (t + env.pollDur n + POLL_INTERVAL)).1,
            .pollReq :: .sleep ::
              (pollAux env pid deadline fuel (n + 1) (t + env.pollDur n + POLL_INTERVAL)).2)
      else (.timedOut, []) := by
  by_cases ht : t < deadline
  · rw [if_pos ht]
    cases hp : env.polls n with
    | transportErr => simp [pollAux, ht, hp, pollStep]
    | http code hist =>
      by_cases hc : code = 200
      · subst hc
        cases hl : lookupKey hist pid with
        | none => simp [pollAux, ht, hp, pollStep, hl]
        | some e =>
          by_cases hs : e.statusStr = some "error"
          · simp [pollAux, ht, hp, pollStep, hl, hs]
          · by_cases ho : e.outputs.isEmpty <;>
              simp [pollAux, ht, hp, pollStep, hl, hs, ho]
      · simp [pollAux, ht, hp, pollStep, hc]
  · simp [pollAux, ht]

theorem waitAux_zero (env : Backend) (deadline n t : Nat) :
    waitAux env deadline 0 n t =
      if t < deadline then (.fuelOut, []) else (.unavailable, []) := rfl

theorem waitAux_succ (env : Backend) (deadline fuel n t : Nat) :
    waitAux env deadline (fuel + 1) n t =
      if t < deadline then
        match probeStep (env.probes n) with
        | some r => r
        | none =>
          ((waitAux env deadline fuel (n + 1) (t + env.probeDur n + 1)).1,
            .probe :: .sleep :: (waitAux env deadline fuel (n + 1) (t + env.probeDur n + 1)).2)
      else (.unavailable, []) := by
  by_cases ht : t < deadline
  · rw [if_pos ht]
    cases hp : env.probes n with
    | ok code => by_cases hc : code = 200 <;> simp [waitAux, ht, hp, probeStep, hc]
    | connError => simp [waitAux, ht, hp, probeStep]
    | otherError m => simp [waitAux, ht, hp, probeStep]
  · simp [waitAux, ht]

/-! ## Poll loop: fuel sufficiency, timeout characterization, reachability -/

theorem pollAux_ne_fuelOut (env : Backend) (pid : String) (deadline : Nat) :
    ∀ fuel n t, deadline ≤ t + fuel →
      (pollAux env pid deadline fuel n t).1 ≠ .fuelOut := by
  intro fuel
  induction fuel with
  | zero =>
    intro n t h
    rw [pollAux_zero, if_neg (by omega)]
    simp
  | succ fuel ih =>
    intro n t h
    rw [pollAux_succ]
    by_cases ht : t < deadline
    · rw [if_pos ht]
      cases hstep : pollStep pid (env.polls n) with
      | some r =>
        rcases pollStep_some pid _ r hstep with ⟨msgs, rfl⟩ | ⟨outs, rfl⟩ <;> simp
      | none =>
        simp only []
        exact ih (n + 1) (t + env.pollDur n + POLL_INTERVAL)
          (by rw [POLL_INTERVAL_eq]; omega)
    · rw [if_neg ht]; simp

theorem pollAux_timedOut_iff (env : Backend) (pid : String) (deadline : Nat) :
    ∀ fuel n t, deadline ≤ t + fuel →
      ((pollAux env pid deadline fuel n t).1 = .timedOut ↔
        ∀ k, timeFrom env.pollDur POLL_INTERVAL n t k < deadline →
          respNonTerminal pid (env.polls (n + k)) = true) := by
  intro fuel
  induction fuel with
  | zero =>
    intro n t h
    rw [pollAux_zero, if_neg (by omega)]
    refine iff_of_true rfl ?_
    intro k hk
    exact absurd hk (by have := le_timeFrom env.pollDur POLL_INTERVAL k n t; omega)
  | succ fuel ih =>
    intro n t h
    rw [pollAux_succ]
    by_cases ht : t < deadline
    · rw [if_pos ht]
      cases hstep : pollStep pid (env.polls n) with
      | some r =>
        have hNT : ¬ respNonTerminal pid (env.polls n) = true := by
          intro hx
          rw [← pollStep_none_iff] at hx
          rw [hx] at hstep
          cases hstep
        refine iff_of_false ?_ ?_
        · rcases pollStep_some pid _ r hstep with ⟨msgs, rfl⟩ | ⟨outs, rfl⟩ <;> simp
        · intro H
          exact hNT (by simpa using H 0 ht)
      | none =>
        have hNT : respNonTerminal pid (env.polls n) = true :=
          (pollStep_none_iff pid _).mp hstep
        simp only []
        rw [ih (n + 1) (t + env.pollDur n + POLL_INTERVAL) (by rw [POLL_INTERVAL_eq]; omega)]
        constructor
        · intro H k hk
          cases k with
          | zero => simpa using hNT
          | succ k =>
            have hx : n + (k + 1) = (n + 1) + k := by omega
            rw [hx]
            exact H k hk
        · intro H k hk
          have hx : (n + 1) + k = n + (k + 1) := by omega
          rw [hx]
          exact H (k + 1) hk
    · rw [if_neg ht]
      refine iff_of_true rfl ?_
      intro k hk
      exact absurd hk (by have := le_timeFrom env.pollDur POLL_INTERVAL k n t; omega)

theorem pollAux_reach (env : Backend) (pid : String) (deadline : Nat) :
    ∀ k fuel n t, deadline ≤ t + fuel →
      (∀ i, i < k → respNonTerminal pid (env.polls (n + i)) = true) →
      timeFrom env.pollDur POLL_INTERVAL n t k < deadline →
      ∀ r, pollStep pid (env.polls (n + k)) = some r →
        (pollAux env pid deadline fuel n t).1 = r.1 := by
  intro k
  induction k with
  | zero =>
    intro fuel n t h _ htime r hr
    have ht : t < deadline := htime
    cases fuel with
    | zero => omega
    | succ fuel =>
      rw [Nat.add_zero] at hr
      rw [pollAux_succ, if_pos ht, hr]
  | succ k ihk =>
    intro fuel n t h hNT htime r hr
    have ht : t < deadline := by
      have := le_timeFrom env.pollDur POLL_INTERVAL (k + 1) n t
      omega
    cases fuel with
    | zero => omega
    | succ fuel =>
      have hNT0 : respNonTerminal pid (env.polls n) = true := by
        simpa using hNT 0 (by omega)
      rw [pollAux_succ, if_pos ht, (pollStep_none_iff pid _).mpr hNT0]
      simp only []
      refine ihk fuel (n + 1) (t + env.pollDur n + POLL_INTERVAL)
        (by rw [POLL_INTERVAL_eq]; omega) ?_ htime r ?_
      · intro i hi
        have hx : (n + 1) + i = n + (i + 1) := by omega
        rw [hx]
        exact hNT (i + 1) (by omega)
      · have hx : (n + 1) + k = n + (k + 1) := by omega
        rw [hx]
        exact hr

theorem pollAux_congr (env env2 : Backend) (pid : String) (deadline K : Nat)
    (hdur : env2.pollDur = env.pollDur)
    (hagree : ∀ m, m ≠ K → env2.polls m = env.polls m)
    (h1 : respNonTerminal pid (env.polls K) = true)
    (h2 : respNonTerminal pid (env2.polls K) = true) :
    ∀ fuel n t, pollAux env pid deadline fuel n t = pollAux env2 pid deadline fuel n t := by
  intro fuel
  induction fuel with
  | zero => intro n t; rw [pollAux_zero, pollAux_zero]
  | succ fuel ih =>
    intro n t
    rw [pollAux_succ, pollAux_succ, hdur]
    by_cases ht : t < deadline
    · rw [if_pos ht, if_pos ht]
      by_cases hn : n = K
      · subst hn
        rw [(pollStep_none_iff pid _).mpr h1, (pollStep_none_iff pid _).mpr h2]
        simp only []
        rw [ih (n + 1) (t + env.pollDur n + POLL_INTERVAL)]
      · rw [hagree n hn]
        cases hstep : pollStep pid (env.polls n) with
        | some r => simp only []
        | none =>
          simp only []
          rw [ih (n + 1) (t + env.pollDur n + POLL_INTERVAL)]
    · rw [if_neg ht, if_neg ht]

/-! ## Readiness loop: fuel sufficiency, timeout, reachability -/

theorem waitAux_ne_fuelOut (env : Backend) (deadline : Nat) :
    ∀ fuel n t, deadline ≤ t + fuel →
      (waitAux env deadline fuel n t).1 ≠ .fuelOut := by
  intro fuel
  induction fuel with
  | zero =>
    intro n t h
    rw [waitAux_zero, if_neg (by omega)]
    simp
  | succ fuel ih =>
    intro n t h
    rw [waitAux_succ]
    by_cases ht : t < deadline
    · rw [if_pos ht]
      cases hstep : probeStep (env.probes n) with
      | some r =>
        rcases probeStep_some _ r hstep with rfl | ⟨m, rfl⟩ <;> simp
      | none =>
        simp only []
        exact ih (n + 1) (t + env.probeDur n + 1) (by omega)
    · rw [if_neg ht]; simp

theorem waitAux_unavailable (env : Backend) (deadline : Nat) :
    ∀ fuel n t, deadline ≤ t + fuel →
      (∀ k, timeFrom env.probeDur 1 n t k < deadline →
        probeNotReady (env.probes (n + k)) = true) →
      (waitAux env deadline fuel n t).1 = .unavailable := by
  intro fuel
  induction fuel with
  | zero =>
    intro n t h _
    rw [waitAux_zero, if_neg (by omega)]
  | succ fuel ih =>
    intro n t h H
    rw [waitAux_succ]
    by_cases ht : t < deadline
    · rw [if_pos ht]
      have hNT : probeNotReady (env.probes n) = true := by simpa using H 0 ht
      rw [(probeStep_none_iff _).mpr hNT]
      simp only []
      refine ih (n + 1) (t + env.probeDur n + 1) (by omega) ?_
      intro k hk
      have hx : (n + 1) + k = n + (k + 1) := by omega
      rw [hx]
      exact H (k + 1) hk
    · rw [if_neg ht]

theorem waitAux_reach (env : Backend) (deadline : Nat) :
    ∀ k fuel n t, deadline ≤ t + fuel →
      (∀ i, i < k → probeNotReady (env.probes (n + i)) = true) →
      timeFrom env.probeDur 1 n t k < deadline →
      ∀ r, probeStep (env.probes (n + k)) = some r →
        (waitAux env deadline fuel n t).1 = r.1 := by
  intro k
  induction k with
  | zero =>
    intro fuel n t h _ htime r hr
    have ht : t < deadline := htime
    cases fuel with
    | zero => omega
    | succ fuel =>
      rw [Nat.add_zero] at hr
      rw [waitAux_succ, if_pos ht, hr]
  | succ k ihk =>
    intro fuel n t h hNT htime r hr
    have ht : t < deadline := by
      have := le_timeFrom env.probeDur 1 (k + 1) n t
      omega
    cases fuel with
    | zero => omega
    | succ fuel =>
      have hNT0 : probeNotReady (env.probes n) = true := by
        simpa using hNT 0 (by omega)
      rw [waitAux_succ, if_pos ht, (probeStep_none_iff _).mpr hNT0]
      simp only []
      refine ihk fuel (n + 1) (t + env.probeDur n + 1) (by omega) ?_ htime r ?_
      · intro i hi
        have hx : (n + 1) + i = n + (i + 1) := by omega
        rw [hx]
        exact hNT (i + 1) (by omega)
      · have hx : (n + 1) + k = n + (k + 1) := by omega
        rw [hx]
        exact hr

/-! ## Bridges from the fuelled loops to the `Except`-level functions -/

theorem poll_until_done_timeout_iff (env : Backend) (pid : String) :
    (poll_until_done env pid).1 = .error (.pollTimeout POLL_TIMEOUT pid) ↔
    (pollAux env pid POLL_TIMEOUT POLL_TIMEOUT 0 0).1 = .timedOut := by
  have hno := pollAux_ne_fuelOut env pid POLL_TIMEOUT POLL_TIMEOUT 0 0 (by omega)
  unfold poll_until_done
  rcases hw : pollAux env pid POLL_TIMEOUT POLL_TIMEOUT 0 0 with ⟨o, evs⟩
  rw [hw] at hno
  cases o with
  | done outs => simp
  | execError msgs => simp
  | timedOut => simp
  | fuelOut => exact absurd rfl hno

theorem poll_until_done_ok_of (env : Backend) (pid : String) (outs : Outputs)
    (h : (pollAux env pid POLL_TIMEOUT POLL_TIMEOUT 0 0).1 = .done outs) :
    (poll_until_done env pid).1 = .ok outs := by
  unfold poll_until_done
  rcases hw : pollAux env pid POLL_TIMEOUT POLL_TIMEOUT 0 0 with ⟨o, evs⟩
  rw [hw] at h
  cases o <;> simp_all

theorem poll_until_done_execError_of (env : Backend) (pid : String) (msgs : List String)
    (h : (pollAux env pid POLL_TIMEOUT POLL_TIMEOUT 0 0).1 = .execError msgs) :
    (poll_until_done env pid).1 = .error (.execError msgs) := by
  unfold poll_until_done
  rcases hw : pollAux env pid POLL_TIMEOUT POLL_TIMEOUT 0 0 with ⟨o, evs⟩
  rw [hw] at h
  cases o <;> simp_all

theorem wait_for_comfy_unavailable_of (env : Backend)
    (h : (waitAux env STARTUP_WAIT STARTUP_WAIT 0 0).1 = .unavailable) :
    (wait_for_comfy env).1 = .error (.notReady STARTUP_WAIT) := by
  unfold wait_for_comfy
  rcases hw : waitAux env STARTUP_WAIT STARTUP_WAIT 0 0 with ⟨o, evs⟩
  rw [hw] at h
  cases o <;> simp_all

theorem wait_for_comfy_ok_of (env : Backend)
    (h : (waitAux env STARTUP_WAIT STARTUP_WAIT 0 0).1 = .ready) :
    (wait_for_comfy env).1 = .ok () := by
  unfold wait_for_comfy
  rcases hw : waitAux env STARTUP_WAIT STARTUP_WAIT 0 0 with ⟨o, evs⟩
  rw [hw] at h
  cases o <;> simp_all

theorem wait_for_comfy_transport_of (env : Backend) (m : String)
    (h : (waitAux env STARTUP_WAIT STARTUP_WAIT 0 0).1 = .raisedOther m) :
    (wait_for_comfy env).1 = .error (.transport m) := by
  unfold wait_for_comfy
  rcases hw : waitAux env STARTUP_WAIT STARTUP_WAIT 0 0 with ⟨o, evs⟩
  rw [hw] at h
  cases o <;> simp_all

/-! ## Normalizer lemmas -/

theorem lookupKey_setKey {α : Type} (l : List (String × α)) (k : String) (v : α) :
    lookupKey (setKey l k v) k = some v := by
  induction l with
  | nil => simp [setKey, lookupKey]
  | cons p rest ih =>
    obtain ⟨k', v'⟩ := p
    by_cases h : k' = k
    · simp [setKey, h, lookupKey]
    · simp [setKey, h, lookupKey, ih]

theorem upload_events (env : Backend) (s f : String) :
    (upload_image_to_comfy env s f).2 = [.uploadCall f] := by
  unfold upload_image_to_comfy
  cases env.upload s f <;> rfl

theorem replace_untouched_id (env : Backend) (cid : String) :
    ∀ wf : Workflow, (∀ p ∈ wf, nodeTouched p.2 = false) →
      replace_base64_images_in_workflow env cid wf = (.ok wf, []) := by
  intro wf
  induction wf with
  | nil => intro _; rfl
  | cons p rest ih =>
    obtain ⟨nid, node⟩ := p
    intro h
    have hrest := ih (fun q hq => h q (List.mem_cons_of_mem _ hq))
    have hnode : nodeTouched node = false := h (nid, node) (List.mem_cons_self _ _)
    by_cases hct : node.class_type = some "LoadImage"
    · have himg : isBase64Image ((lookupKey node.inputs "image").getD (.str "")) = false := by
        unfold nodeTouched at hnode
        rw [hct] at hnode
        simpa using hnode
      unfold replace_base64_images_in_workflow
      rw [if_neg (by simp [hct])]
      cases hv : (lookupKey node.inputs "image").getD (.str "") with
      | str s =>
        have hbs : isBase64Str s = false := by
          rw [hv] at himg
          simpa [isBase64Image] using himg
        simp [hv, hbs, hrest, Except.map]
      | int m => simp [hv, hrest, Except.map]
      | other => simp [hv, hrest, Except.map]
    · unfold replace_base64_images_in_workflow
      rw [if_pos (by simp [hct])]
      simp [hrest, Except.map]

/-- The per-node relationship established by a successful normalization pass:
ids are preserved; an untouched node passes through identically; a touched
node is rewritten exactly once, at its `image` input, to the name returned by
the upload call. -/
def replacedNode (env : Backend) (cid : String) (p q : String × Node) : Prop :=
  p.1 = q.1 ∧
    (nodeTouched p.2 = false → q = p) ∧
    (nodeTouched p.2 = true → ∃ s r,
      (lookupKey p.2.inputs "image").getD (.str "") = .str s ∧
      upload_image_to_comfy env s ("i2v_input_" ++ cid ++ ".png")
        = (.ok r, [.uploadCall ("i2v_input_" ++ cid ++ ".png")]) ∧
      q.2 = { class_type := p.2.class_type,
              inputs := setKey p.2.inputs "image" (.str r) })

theorem replace_ok_forall2 (env : Backend) (cid : String) :
    ∀ (wf wf' : Workflow) (evs : List Ev),
      replace_base64_images_in_workflow env cid wf = (.ok wf', evs) →
      List.Forall₂ (replacedNode env cid) wf wf' := by
  intro wf
  induction wf with
  | nil =>
    intro wf' evs hok
    unfold replace_base64_images_in_workflow at hok
    obtain ⟨rfl, -⟩ : wf' = [] ∧ evs = [] := by
      constructor <;> · injection hok with h1 h2; simp_all
    exact List.Forall₂.nil
  | cons p rest ih =>
    obtain ⟨nid, node⟩ := p
    intro wf' evs hok
    rcases hr : replace_base64_images_in_workflow env cid rest with ⟨res, revs⟩
    by_cases hct : node.class_type = some "LoadImage"
    · cases hv : (lookupKey node.inputs "image").getD (.str "") with
      | str s =>
        by_cases hbs : isBase64Str s
        · have htouch : nodeTouched node = true := by
            simp [nodeTouched, hct, hv, isBase64Image, hbs]
          rcases hu : upload_image_to_comfy env s ("i2v_input_" ++ cid ++ ".png")
            with ⟨ures, uevs⟩
          have huevs : uevs = [.uploadCall ("i2v_input_" ++ cid ++ ".png")] := by
            have := upload_events env s ("i2v_input_" ++ cid ++ ".png")
            rw [hu] at this
            exact this
          subst huevs
          unfold replace_base64_images_in_workflow at hok
          rw [if_neg (by simp [hct])] at hok
          rw [hv] at hok
          simp only [hbs, if_pos rfl] at hok
          rw [hu] at hok
          cases ures with
          | error e => simp [Except.map] at hok
          | ok registered =>
            rw [hr] at hok
            cases res with
            | error e => simp [Except.map] at hok
            | ok ws =>
              simp only [Except.map] at hok
              injection hok with h1 h2
              injection h1 with h1
              subst h1
              refine List.Forall₂.cons ?_ (ih ws revs (by rw [hr]))
              refine ⟨rfl, ?_, ?_⟩
              · intro hfalse; rw [htouch] at hfalse; cases hfalse
              · intro _
                exact ⟨s, registered, hv, by rw [hu], rfl⟩
        · have huntouch : nodeTouched node = false := by
            simp [nodeTouched, hct, hv, isBase64Image, hbs]
          unfold replace_base64_images_in_workflow at hok
          rw [if_neg (by simp [hct])] at hok
          rw [hv] at hok
          simp only [hbs] at hok
          rw [hr] at hok
          cases res with
          | error e => simp [Except.map] at hok
          | ok ws =>
            simp only [Except.map, Bool.false_eq_true, if_false] at hok
            injection hok with h1 h2
            injection h1 with h1
            subst h1
            refine List.Forall₂.cons ?_ (ih ws revs (by rw [hr]))
            exact ⟨rfl, fun _ => rfl, fun htr => absurd htr (by rw [huntouch]; simp)⟩
      | int m =>
        have huntouch : nodeTouched node = false := by
          simp [nodeTouched, hct, hv, isBase64Image]
        unfold replace_base64_images_in_workflow at hok
        rw [if_neg (by simp [hct])] at hok
        rw [hv] at hok
        rw [hr] at hok
        cases res with
        | error e => exact absurd (congrArg Prod.fst hok) (by simp [Except.map])
        | ok ws =>
          simp only [Except.map] at hok
          injection hok with h1 h2
          injection h1 with h1
          subst h1
          refine List.Forall₂.cons ?_ (ih ws revs (by rw [hr]))
          exact ⟨rfl, fun _ => rfl, fun htr => absurd htr (by rw [huntouch]; simp)⟩
      | other =>
        have huntouch : nodeTouched node = false := by
          simp [nodeTouched, hct, hv, isBase64Image]
        unfold replace_base64_images_in_workflow at hok
        rw [if_neg (by simp [hct])] at hok
        rw [hv] at hok
        rw [hr] at hok
        cases res with
        | error e => exact absurd (congrArg Prod.fst hok) (by simp [Except.map])
        | ok ws =>
          simp only [Except.map] at hok
          injection hok with h1 h2
          injection h1 with h1
          subst h1
          refine List.Forall₂.cons ?_ (ih ws revs (by rw [hr]))
          exact ⟨rfl, fun _ => rfl, fun htr => absurd htr (by rw [huntouch]; simp)⟩
    · have huntouch : nodeTouched node = false := by
        simp [nodeTouched, hct]
      unfold replace_base64_images_in_workflow at hok
      rw [if_pos (by simp [hct])] at hok
      rw [hr] at hok
      cases res with
      | error e => simp [Except.map] at hok
      | ok ws =>
        simp only [Except.map] at hok
        injection hok with h1 h2
        injection h1 with h1
        subst h1
        refine List.Forall₂.cons ?_ (ih ws revs (by rw [hr]))
        exact ⟨rfl, fun _ => rfl, fun htr => absurd htr (by rw [huntouch]; simp)⟩

theorem replaced_untouched (env : Backend) (cid : String)
    (hup : ∀ s f r evs, upload_image_to_comfy env s f = (.ok r, evs) →
      isBase64Str r = false) :
    ∀ (wf wf' : Workflow), List.Forall₂ (replacedNode env cid) wf wf' →
      ∀ q ∈ wf', nodeTouched q.2 = false := by
  intro wf wf' hall
  induction hall with
  | nil => intro q hq; cases hq
  | cons hpq hrest ih =>
    intro q hq
    rcases List.mem_cons.mp hq with rfl | hq2
    · obtain ⟨-, hfalse, htrue⟩ := hpq
      rename_i p ps qs
      cases htouch : nodeTouched p.2 with
      | false => rw [hfalse htouch]; exact htouch
      | true =>
        obtain ⟨s, r, -, hu, hq2eq⟩ := htrue htouch
        have hbs : isBase64Str r = false := hup s _ r _ hu
        unfold nodeTouched
        rw [hq2eq]
        simp [lookupKey_setKey, isBase64Image, hbs]
    · exact ih q hq2

/-! ## Result Locator lemmas -/

theorem findInNode_eq (no : NodeOutput) :
    findInNode no = (no.gifs ++ no.videos ++ no.images).find? isMediaItem := by
  unfold findInNode findInCat
  rw [List.append_assoc, List.find?_append, List.find?_append]
  cases no.gifs.find? isMediaItem with
  | some item => rfl
  | none =>
    cases no.videos.find? isMediaItem with
    | some item => rfl
    | none => rfl

theorem find_output_file_eq_flat :
    ∀ outputs : Outputs, find_output_file outputs =
      ((allItemsNodeMajor outputs).find? isMediaItem).map joinedPath := by
  intro outputs
  induction outputs with
  | nil => rfl
  | cons p rest ih =>
    obtain ⟨nid, no⟩ := p
    unfold find_output_file allItemsNodeMajor
    rw [List.find?_append, ← findInNode_eq]
    cases h : findInNode no with
    | some item => simp [h, Option.or]
    | none => simp [h, Option.or, ih]

/-! ## First-iteration helpers -/

theorem waitAux_first (env : Backend) (deadline fuel n t : Nat) (r : WaitOutcome × List Ev)
    (hr : probeStep (env.probes n) = some r) (ht : t < deadline) (hf : fuel ≠ 0) :
    waitAux env deadline fuel n t = r := by
  cases fuel with
  | zero => exact absurd rfl hf
  | succ fuel => rw [waitAux_succ, if_pos ht, hr]

theorem pollAux_first (env : Backend) (pid : String) (deadline fuel n t : Nat)
    (r : PollOutcome × List Ev)
    (hr : pollStep pid (env.polls n) = some r) (ht : t < deadline) (hf : fuel ≠ 0) :
    pollAux env pid deadline fuel n t = r := by
  cases fuel with
  | zero => exact absurd rfl hf
  | succ fuel => rw [pollAux_succ, if_pos ht, hr]

theorem wait_for_comfy_ready (env : Backend) (h : env.probes 0 = .ok 200) :
    wait_for_comfy env = (.ok (), [.probe]) := by
  unfold wait_for_comfy
  rw [waitAux_first env STARTUP_WAIT STARTUP_WAIT 0 0 (.ready, [.probe])
    (by rw [h]; rfl) (by decide) (by decide)]

theorem poll_until_done_first_done (env : Backend) (pid : String)
    (hist : List (String × HistEntry)) (e : HistEntry)
    (h : env.polls 0 = .http 200 hist) (hl : lookupKey hist pid = some e)
    (hs : ¬ e.statusStr = some "error") (ho : e.outputs.isEmpty = false) :
    poll_until_done env pid = (.ok e.outputs, [.pollReq]) := by
  unfold poll_until_done
  rw [pollAux_first env pid POLL_TIMEOUT POLL_TIMEOUT 0 0 (.done e.outputs, [.pollReq])
    (by rw [h]; simp [pollStep, hl, hs, ho]) (by decide) (by decide)]

/-! ## Claim theorems -/

/-- A 2000-character dot-free string satisfies the base64 heuristic. -/
theorem bigB64_isBase64 : isBase64Str bigB64 = true := by
  unfold isBase64Str bigB64
  rw [show (String.mk (List.replicate 2000 'a')).toList = List.replicate 2000 'a' from rfl,
      List.take_replicate]
  rw [show (String.mk (List.replicate 2000 'a')).length = 2000 from by
        rw [String.length_mk, List.length_replicate]]
  norm_num
  decide

/-- C1: for the end-to-end scenario — input workflow containing a single
`LoadImage` node whose `image` is a 2000-character base64 string, a backend
that is immediately ready, accepts the upload, accepts submission returning
handle `"abc123"`, and whose first poll reports
`outputs = {"9": {"videos": [{"filename": "result.mp4", "subfolder": ""}]}}` —
the handler returns exactly `{"status": "completed",
"video_url": "/outputs/result.mp4", "task_id": "job_abc123",
"seed_used": -1}`. -/
theorem C1_end_to_end :
    (handler env1 "cid1" job1).1
      = .completed "/outputs/result.mp4" "job_abc123" (-1) := by
  have hwait : wait_for_comfy env1 = (.ok (), [.probe]) := wait_for_comfy_ready env1 rfl
  have hrep : replace_base64_images_in_workflow env1 "cid1" wf1
      = (.ok wf1r, [.uploadCall "i2v_input_cid1.png"]) := by
    simp [replace_base64_images_in_workflow, bigB64_isBase64, upload_image_to_comfy,
      env1, wf1, wf1r, lookupKey, setKey, Except.map]
  have hpoll : poll_until_done env1 "abc123" = (.ok outs1, [.pollReq]) := by
    have h := poll_until_done_first_done env1 "abc123" hist1 entry1 rfl (by decide)
      (by decide) (by decide)
    simpa [entry1] using h
  have hqueue : queue_prompt env1 wf1r "cid1" = (.ok "abc123", [.submitCall]) := by
    simp [queue_prompt, env1]
  have hseed : extract_seed_from_workflow wf1r = -1 := by decide
  have hfind : find_output_file outs1 = some ["comfyui", "output", "result.mp4"] := by decide
  simp only [handler, job1, Option.getD_some]
  rw [show wf1.isEmpty = false from rfl]
  simp only [Bool.false_eq_true, if_false]
  unfold handlerBody
  rw [hwait]
  simp only [hrep, hqueue, hpoll, hfind, hseed]
  rfl

/-- C7: for the input `{"input": {}}` (no `workflow` field) the handler
returns exactly the validation error dict, and — for every backend and every
client id — performs no backend interaction at all (empty event trace). -/
theorem C7_missing_workflow (env : Backend) (client_id : String) :
    handler env client_id jobNoWorkflow =
      (.error "Missing or invalid 'workflow' in input. Expected a ComfyUI API-format workflow dict.",
        []) := rfl

/-- C10: a present-but-empty workflow dict (`{"input": {"workflow": {}}}`)
is falsy in Python, so validation rejects it with the same error as a missing
workflow, again without any backend interaction (empty event trace), for
every backend and client id. -/
theorem C10_empty_workflow (env : Backend) (client_id : String) :
    handler env client_id jobEmptyWorkflow =
      (.error "Missing or invalid 'workflow' in input. Expected a ComfyUI API-format workflow dict.",
        []) := rfl

/-- C3 fails as stated: the claimed scan order is category-major — all `gifs`
across every node, then all `videos`, then all `images`, independent of node
order (`locateCategoryMajor`) — but `find_output_file` scans node-major.  On
`exC3` (node `"1"` holds a `.mp4` video, node `"2"` holds a `.gif` gif) the
code returns the `.mp4` of the first node while the claimed order returns the
`.gif`. -/
theorem C3_locator_counterexample :
    find_output_file exC3 = some ["comfyui", "output", "v.mp4"] ∧
    locateCategoryMajor exC3 = some ["comfyui", "output", "g.gif"] ∧
    find_output_file exC3 ≠ locateCategoryMajor exC3 :=
  ⟨by decide, by decide, by decide⟩

/-- C3 (amended): the Result Locator returns the first descriptor with a
recognized media extension in node-major order — nodes in outputs-dict order,
and within each node the categories in the fixed order `gifs`, `videos`,
`images` (this per-node category priority is independent of how the node's
own record orders them); in particular, for outputs containing only a `.png`
image descriptor and a `.mp4` video descriptor in that order, the located
path is the `.mp4` one. -/
theorem C3_locator_amended :
    (∀ outputs : Outputs, find_output_file outputs =
      ((allItemsNodeMajor outputs).find? isMediaItem).map joinedPath) ∧
    find_output_file exPngMp4 = some ["comfyui", "output", "result.mp4"] :=
  ⟨find_output_file_eq_flat, by decide⟩

/-- C4 fails as stated: `wait_for_comfy` catches only `ConnectionError`; a
different transport error (here a read timeout on the very first probe)
propagates immediately — after a single probe, with no sleep — and the
failure is not the `BackendUnavailable` timeout error. -/
theorem C4_wait_counterexample :
    wait_for_comfy envReadTimeout = (.error (.transport "read timed out"), [.probe]) ∧
    (.error (.transport "read timed out") : Except Exc Unit)
      ≠ .error (.notReady STARTUP_WAIT) :=
  ⟨by decide, by decide⟩

/-- C4 (amended): the readiness prober treats connection-refused and non-200
responses as not-ready signals and keeps retrying; expiry of the startup
timeout with only such responses fails with `BackendUnavailable`; but any
other transport error is not caught and propagates immediately as that error
rather than `BackendUnavailable`. -/
theorem C4_wait_policy (env : Backend) :
    ((∀ k, probeTimeAt env k < STARTUP_WAIT → probeNotReady (env.probes k) = true) →
      (wait_for_comfy env).1 = .error (.notReady STARTUP_WAIT)) ∧
    (∀ k, (∀ i, i < k → probeNotReady (env.probes i) = true) →
      probeTimeAt env k < STARTUP_WAIT →
        (env.probes k = .ok 200 → (wait_for_comfy env).1 = .ok ()) ∧
        (∀ m, env.probes k = .otherError m →
          (wait_for_comfy env).1 = .error (.transport m))) := by
  constructor
  · intro H
    refine wait_for_comfy_unavailable_of env ?_
    refine waitAux_unavailable env STARTUP_WAIT STARTUP_WAIT 0 0 (by omega) ?_
    intro k hk
    simpa using H k hk
  · intro k hNT htime
    constructor
    · intro h200
      refine wait_for_comfy_ok_of env ?_
      have := waitAux_reach env STARTUP_WAIT k STARTUP_WAIT 0 0 (by omega)
        (by intro i hi; simpa using hNT i hi) htime (.ready, [.probe])
        (by rw [Nat.zero_add, h200]; rfl)
      simpa using this
    · intro m hm
      refine wait_for_comfy_transport_of env m ?_
      have := waitAux_reach env STARTUP_WAIT k STARTUP_WAIT 0 0 (by omega)
        (by intro i hi; simpa using hNT i hi) htime (.raisedOther m, [.probe])
        (by rw [Nat.zero_add, hm]; rfl)
      simpa using this

/-- Witness for the amended C4 at a backend that refuses connections
forever. -/
theorem C4_wait_policy_witness :
    (wait_for_comfy envAllConnRefused).1 = .error (.notReady STARTUP_WAIT) :=
  (C4_wait_policy envAllConnRefused).1 (fun _ _ => rfl)

/-- C5: if the first history response for the handle reports status
`"error"`, `poll_until_done` raises the execution error at once: the trace is
a single poll request and no sleep ever happens. -/
theorem C5_error_immediate (env : Backend) (pid : String)
    (hist : List (String × HistEntry)) (e : HistEntry)
    (h : env.polls 0 = .http 200 hist) (hl : lookupKey hist pid = some e)
    (hs : e.statusStr = some "error") :
    poll_until_done env pid = (.error (.execError e.messages), [.pollReq]) := by
  unfold poll_until_done
  rw [pollAux_first env pid POLL_TIMEOUT POLL_TIMEOUT 0 0 (.execError e.messages, [.pollReq])
    (by rw [h]; simp [pollStep, hl, hs]) (by decide) (by decide)]

/-- Witness for C5 at a backend whose first poll reports an error. -/
theorem C5_error_immediate_witness :
    poll_until_done envErrFirst "p" = (.error (.execError ["boom"]), [.pollReq]) :=
  C5_error_immediate envErrFirst "p" [("p", entryErr)] entryErr rfl (by decide) rfl

/-- C9: when a history entry reports both status `"error"` and a non-empty
outputs payload, the error status is checked first and wins — the poll fails
with the execution error, not with success. -/
theorem C9_error_precedence (env : Backend) (pid : String) (k : Nat)
    (hist : List (String × HistEntry)) (e : HistEntry)
    (hNT : ∀ i, i < k → respNonTerminal pid (env.polls i) = true)
    (htime : pollTimeAt env k < POLL_TIMEOUT)
    (h : env.polls k = .http 200 hist) (hl : lookupKey hist pid = some e)
    (hs : e.statusStr = some "error") (ho : e.outputs.isEmpty = false) :
    (poll_until_done env pid).1 = .error (.execError e.messages) := by
  refine poll_until_done_execError_of env pid e.messages ?_
  have := pollAux_reach env pid POLL_TIMEOUT k POLL_TIMEOUT 0 0 (by omega)
    (by intro i hi; simpa using hNT i hi) htime (.execError e.messages, [.pollReq])
    (by rw [Nat.zero_add, h]; simp [pollStep, hl, hs])
  simpa using this

/-- Witness for C9 at a backend reporting error status together with
outputs. -/
theorem C9_error_precedence_witness :
    (poll_until_done envErrOut "p").1 = .error (.execError ["boom"]) :=
  C9_error_precedence envErrOut "p" 0 [("p", entryErrWithOutputs)] entryErrWithOutputs
    (fun i hi => absurd hi (Nat.not_lt_zero i)) (by decide) rfl (by decide) rfl
    (by decide)

/-- C6: the poll loop swallows transport errors and non-terminal responses —
including a 200 response whose history lacks the handle, and one whose entry
has no outputs payload, which behave identically — retrying without any
attempt bound; it fails with `PollTimeout` exactly when the wall-clock
deadline from poll start passes without a terminal response. -/
theorem C6_poll_policy (env : Backend) (pid : String) :
    ((poll_until_done env pid).1 = .error (.pollTimeout POLL_TIMEOUT pid) ↔
      ∀ k, pollTimeAt env k < POLL_TIMEOUT → respNonTerminal pid (env.polls k) = true) ∧
    (∀ (k : Nat) (hist : List (String × HistEntry)) (e : HistEntry),
      (∀ i, i < k → respNonTerminal pid (env.polls i) = true) →
      pollTimeAt env k < POLL_TIMEOUT → env.polls k = .http 200 hist →
      lookupKey hist pid = some e → ¬ e.statusStr = some "error" →
      e.outputs.isEmpty = false → (poll_until_done env pid).1 = .ok e.outputs) ∧
    (∀ (env2 : Backend) (K : Nat) (hist hist2 : List (String × HistEntry)) (e : HistEntry),
      env2.pollDur = env.pollDur →
      (∀ m, m ≠ K → env2.polls m = env.polls m) →
      env.polls K = .http 200 hist → lookupKey hist pid = some e →
      ¬ e.statusStr = some "error" → e.outputs = [] →
      env2.polls K = .http 200 hist2 → lookupKey hist2 pid = none →
      poll_until_done env pid = poll_until_done env2 pid) := by
  refine ⟨?_, ?_, ?_⟩
  · rw [poll_until_done_timeout_iff,
      pollAux_timedOut_iff env pid POLL_TIMEOUT POLL_TIMEOUT 0 0 (by omega)]
    constructor
    · intro H k hk
      simpa using H k hk
    · intro H k hk
      simpa using H k hk
  · intro k hist e hNT htime h hl hs ho
    refine poll_until_done_ok_of env pid e.outputs ?_
    have := pollAux_reach env pid POLL_TIMEOUT k POLL_TIMEOUT 0 0 (by omega)
      (by intro i hi; simpa using hNT i hi) htime (.done e.outputs, [.pollReq])
      (by rw [Nat.zero_add, h]; simp [pollStep, hl, hs, ho])
    simpa using this
  · intro env2 K hist hist2 e hdur hagree hK hl hs houts hK2 hl2
    have h1 : respNonTerminal pid (env.polls K) = true := by
      simp [respNonTerminal, hK, hl, hs, houts]
    have h2 : respNonTerminal pid (env2.polls K) = true := by
      simp [respNonTerminal, hK2, hl2]
    unfold poll_until_done
    rw [pollAux_congr env env2 pid POLL_TIMEOUT K hdur hagree h1 h2 POLL_TIMEOUT 0 0]

/-- Witness for C6 at a backend whose first four responses exercise every
swallowed shape before success on the fifth poll. -/
theorem C6_poll_policy_witness :
    (poll_until_done envC6 "p").1 = .ok outs1 :=
  (C6_poll_policy envC6 "p").2.1 4 [("p", entry1)] entry1
    (by decide) (by decide) rfl (by decide) (by decide) (by decide)

/-- C2: normalization rewrites a node's `image` input only when the node is
`LoadImage`-tagged and the value is a string longer than 256 characters with
no `.` in its first 50 characters (`nodeTouched`); a workflow all of whose
nodes fail that test — in particular one with no `LoadImage` node, one whose
image strings are at most 256 characters, or one whose long image strings
carry an early dot — passes through as the identity, with no upload call. -/
theorem C2_normalization_guard (env : Backend) (cid : String) :
    (∀ wf : Workflow, (∀ p ∈ wf, nodeTouched p.2 = false) →
      replace_base64_images_in_workflow env cid wf = (.ok wf, [])) ∧
    (∀ (wf wf' : Workflow) (evs : List Ev),
      replace_base64_images_in_workflow env cid wf = (.ok wf', evs) →
      List.Forall₂ (fun p q : String × Node =>
        p.1 = q.1 ∧ (nodeTouched p.2 = false → q = p)) wf wf') := by
  constructor
  · exact replace_untouched_id env cid
  · intro wf wf' evs hok
    exact (replace_ok_forall2 env cid wf wf' evs hok).imp
      (fun a b hab => ⟨hab.1, hab.2.1⟩)


set_option maxRecDepth 40000 in
/-- Witness for C2 on a workflow containing a non-image node, a short image
string, and a >256-character image string with an early dot. -/
theorem C2_normalization_guard_witness :
    replace_base64_images_in_workflow env1 "c" wfUntouched = (.ok wfUntouched, []) :=
  (C2_normalization_guard env1 "c").1 wfUntouched (by decide)

/-- The short-name upload backend always registers files under a name that no
longer matches the base64 heuristic. -/
theorem envReg_upload_short :
    ∀ s f r evs, upload_image_to_comfy envReg s f = (.ok r, evs) →
      isBase64Str r = false := by
  intro s f r evs h
  unfold upload_image_to_comfy at h
  rw [show envReg.upload s f = .ok (some "reg.png") from rfl] at h
  injection h with h1 h2
  injection h1 with h1
  rw [Option.getD_some] at h1
  subst h1
  decide

/-- C8: each successful normalization performs exactly one image-reference
mutation per matching node (`replacedNode`: ids preserved, untouched nodes
identical, a touched node rewritten only at its `image` input with the name
returned by its single upload call); and when the registered names no longer
satisfy the base64 heuristic, re-running normalization on the result — under
any client id — is a no-op with no upload call. -/
theorem C8_idempotent (env : Backend) (cid : String)
    (hup : ∀ s f r evs, upload_image_to_comfy env s f = (.ok r, evs) →
      isBase64Str r = false)
    (wf wf' : Workflow) (evs : List Ev)
    (hok : replace_base64_images_in_workflow env cid wf = (.ok wf', evs)) :
    List.Forall₂ (replacedNode env cid) wf wf' ∧
    ∀ cid2 : String, replace_base64_images_in_workflow env cid2 wf' = (.ok wf', []) := by
  have hall := replace_ok_forall2 env cid wf wf' evs hok
  exact ⟨hall, fun cid2 =>
    replace_untouched_id env cid2 wf' (replaced_untouched env cid hup wf wf' hall)⟩

set_option maxRecDepth 40000 in
/-- Witness for C8: normalizing the already-normalized one-node workflow is a
no-op. -/
theorem C8_idempotent_witness :
    replace_base64_images_in_workflow envReg "c2" wfC8r = (.ok wfC8r, []) :=
  (C8_idempotent envReg "c" envReg_upload_short wfC8 wfC8r
    [.uploadCall "i2v_input_c.png"] (by decide)).2 "c2"

end Wan22
